import Mathlib

/-!
Verification development for the VoidLink tunnel relay server
(`internal/tunnel/server.go`, `internal/tunnel/mc_proxy.go`, and the HTTP
proxy file).  The Go `sync.Map` registries are modelled as association
lists, concurrent handlers as atomic state-transition functions, and the
pure parsing/encoding helpers as Lean functions over byte (`Nat`) and
character lists.
-/

namespace VoidLink

/-! ### Association-list model of `sync.Map`

`mload`/`mstore`/`mdelete` model `sync.Map.Load`, `Store` and `Delete`.
`Store` replaces any previous binding of the key. -/

def mload {K V : Type} [BEq K] (m : List (K × V)) (k : K) : Option V :=
  (m.find? (fun kv => kv.1 == k)).map (·.2)

def mdelete {K V : Type} [BEq K] (m : List (K × V)) (k : K) : List (K × V) :=
  m.filter (fun kv => !(kv.1 == k))

def mstore {K V : Type} [BEq K] (m : List (K × V)) (k : K) (v : V) : List (K × V) :=
  (k, v) :: mdelete m k

/-- Number of bindings of key `k` (a well-formed map has at most one). -/
def countKey {K V : Type} [BEq K] (m : List (K × V)) (k : K) : Nat :=
  m.countP (fun kv => kv.1 == k)

theorem mload_nil {K V : Type} [BEq K] (k : K) : mload ([] : List (K × V)) k = none := rfl

theorem mload_mstore_self {K V : Type} [BEq K] [LawfulBEq K]
    (m : List (K × V)) (k : K) (v : V) : mload (mstore m k v) k = some v := by
  simp [mload, mstore, List.find?]

theorem mload_mstore_ne {K V : Type} [BEq K] [LawfulBEq K]
    (m : List (K × V)) (k k' : K) (v : V) (h : k' ≠ k) :
    mload (mstore m k v) k' = mload m k' := by
  simp only [mload, mstore, mdelete, List.find?]
  have hk : (k == k') = false := by simp [beq_iff_eq]; exact fun he => h he.symm
  simp only [hk]
  induction m with
  | nil => rfl
  | cons kv rest ih =>
    by_cases hkv : kv.1 = k
    · have h1 : (kv.1 == k) = true := by simp [hkv]
      have h2 : (kv.1 == k') = false := by
        simp [beq_iff_eq]; exact fun he => h (by rw [← he, hkv])
      simp [List.filter, h1, h2, List.find?] at ih ⊢
      exact ih
    · have h1 : (kv.1 == k) = false := by simp [hkv]
      by_cases hkv' : kv.1 = k'
      · have h2 : (kv.1 == k') = true := by simp [hkv']
        simp [List.filter, h1, h2, List.find?]
      · have h2 : (kv.1 == k') = false := by simp [hkv']
        simp only [List.filter, h1, Bool.not_false, List.find?, h2, cond_false] at ih ⊢
        exact ih

theorem mload_mdelete_self {K V : Type} [BEq K] [LawfulBEq K]
    (m : List (K × V)) (k : K) : mload (mdelete m k) k = none := by
  simp only [mload, mdelete, Option.map_eq_none', List.find?_eq_none, List.mem_filter]
  intro kv hkv
  simp only [Bool.not_eq_true'] at hkv
  exact fun hc => by simp [hkv.2] at hc

theorem mload_mdelete_ne {K V : Type} [BEq K] [LawfulBEq K]
    (m : List (K × V)) (k k' : K) (h : k' ≠ k) :
    mload (mdelete m k) k' = mload m k' := by
  simp only [mload, mdelete]
  induction m with
  | nil => rfl
  | cons kv rest ih =>
    by_cases hkv : kv.1 = k
    · have h1 : (kv.1 == k) = true := by simp [hkv]
      have h2 : (kv.1 == k') = false := by
        simp [beq_iff_eq]; exact fun he => h (by rw [← he, hkv])
      simp only [List.filter, h1, Bool.not_true, List.find?, h2, cond_false] at ih ⊢
      exact ih
    · have h1 : (kv.1 == k) = false := by simp [hkv]
      by_cases hkv' : kv.1 = k'
      · have h2 : (kv.1 == k') = true := by simp [hkv']
        simp [List.filter, h1, h2, List.find?]
      · have h2 : (kv.1 == k') = false := by simp [hkv']
        simp only [List.filter, h1, Bool.not_false, List.find?, h2, cond_false] at ih ⊢
        exact ih

theorem mdelete_eq_self {K V : Type} [BEq K] [LawfulBEq K]
    (m : List (K × V)) (k : K) (h : mload m k = none) : mdelete m k = m := by
  simp only [mload, Option.map_eq_none', List.find?_eq_none] at h
  simp only [mdelete, List.filter_eq_self]
  intro kv hkv
  simpa using h kv hkv

theorem mdelete_mstore_self {K V : Type} [BEq K] [LawfulBEq K]
    (m : List (K × V)) (k : K) (v : V) : mdelete (mstore m k v) k = mdelete m k := by
  simp only [mstore, mdelete, List.filter]
  simp

theorem countKey_mstore_self {K V : Type} [BEq K] [LawfulBEq K]
    (m : List (K × V)) (k : K) (v : V) : countKey (mstore m k v) k = 1 := by
  simp only [countKey, mstore, mdelete, List.countP_cons]
  have : (m.filter (fun kv => !(kv.1 == k))).countP (fun kv => kv.1 == k) = 0 := by
    rw [List.countP_eq_zero]
    intro kv hkv
    have := (List.mem_filter.mp hkv).2
    simpa using this
  simp [this]

/-! ### Data model (`server.go`)

`TunnelRegistration` mirrors the Go struct of the same name.  Network
handles (client control connections, UDP listeners, rendezvous channels)
are identified by `Nat` tokens; closing a handle records its token in a
ghost `closed…` list of the state. -/

structure TunnelRegistration where
  TunnelID : String
  Subdomain : String
  MCLocalPort : Int
  HTTPLocalPort : Option Int
  UDPLocalPort : Int
  UDPPublicPort : Option Int
deriving DecidableEq, Repr

/-- The `ClientConn` struct: the connection handle (`cid`) and the
`pendingTCP` map (`connID → chan net.Conn`, channels as `Nat` tokens). -/
structure ClientC where
  cid : Nat
  pending : List (String × Nat)
deriving DecidableEq, Repr

/-- A `udpPlayerEntry`: the packet listener it arrived on and the peer
address (`pc`, `addr` in Go). -/
structure UdpEntry where
  pc : Nat
  addr : String
deriving DecidableEq, Repr

/-- The mutable registries of `tunnel.Server` (each a `sync.Map` in Go),
plus ghost fields: `nextLid` numbers freshly bound UDP listeners, and
`closedClients` / `closedListeners` record every handle the server has
closed. -/
structure SState where
  clients : List (String × ClientC)
  subdomainMap : List (String × String)
  tunnelMCPort : List (String × Int)
  tunnelHTTPPort : List (String × Int)
  portOwners : List (Int × String)
  portLocalMap : List (Int × Int)
  udpListeners : List (Int × Nat)
  udpPlayerMap : List (String × UdpEntry)
  nextLid : Nat
  closedClients : List Nat
  closedListeners : List Nat
deriving DecidableEq, Repr

def initState : SState :=
  { clients := [], subdomainMap := [], tunnelMCPort := [], tunnelHTTPPort := []
    portOwners := [], portLocalMap := [], udpListeners := [], udpPlayerMap := []
    nextLid := 0, closedClients := [], closedListeners := [] }

/-- `Server.RegisterTunnel` (server.go:110-128).  The `startUDPPortListener`
goroutine's single state effect — storing the freshly bound packet
listener into `udpListeners` (server.go:342) — is modelled atomically
here, guarded by `bindOk` which stands for `net.ListenPacket` succeeding;
on a failed bind the goroutine returns without storing anything. -/
def RegisterTunnel (s : SState) (reg : TunnelRegistration) (bindOk : Bool) : SState :=
  let s1 := { s with subdomainMap := mstore s.subdomainMap reg.Subdomain reg.TunnelID
                     tunnelMCPort := mstore s.tunnelMCPort reg.TunnelID reg.MCLocalPort }
  let s2 := match reg.HTTPLocalPort with
    | some p => { s1 with tunnelHTTPPort := mstore s1.tunnelHTTPPort reg.TunnelID p }
    | none => { s1 with tunnelHTTPPort := mdelete s1.tunnelHTTPPort reg.TunnelID }
  match reg.UDPPublicPort with
  | some p =>
    if (mload s2.udpListeners p).isSome then s2
    else
      let s3 := { s2 with portOwners := mstore s2.portOwners p reg.TunnelID
                          portLocalMap := mstore s2.portLocalMap p reg.UDPLocalPort }
      if bindOk then
        { s3 with udpListeners := mstore s3.udpListeners p s3.nextLid
                  nextLid := s3.nextLid + 1 }
      else s3
  | none => s2

/-- `Server.UnregisterTunnel` (server.go:132-149): drop subdomain routing
and local-port entries, close and drop the UDP listener, and disconnect a
still-connected client. -/
def UnregisterTunnel (s : SState) (tunnelID subdomain : String) (udpPublicPort : Option Int) :
    SState :=
  let s1 := { s with subdomainMap := mdelete s.subdomainMap subdomain
                     tunnelMCPort := mdelete s.tunnelMCPort tunnelID
                     tunnelHTTPPort := mdelete s.tunnelHTTPPort tunnelID }
  let s2 := match udpPublicPort with
    | some p =>
      let s' := { s1 with portOwners := mdelete s1.portOwners p
                          portLocalMap := mdelete s1.portLocalMap p }
      match mload s'.udpListeners p with
      | some lid => { s' with udpListeners := mdelete s'.udpListeners p
                              closedListeners := lid :: s'.closedListeners }
      | none => s'
    | none => s1
  match mload s2.clients tunnelID with
  | some c => { s2 with clients := mdelete s2.clients tunnelID
                        closedClients := c.cid :: s2.closedClients }
  | none => s2

/-- `Server.IsClientConnected` (server.go:152-155). -/
def IsClientConnected (s : SState) (tunnelID : String) : Bool :=
  (mload s.clients tunnelID).isSome

/-- `Server.IsUDPPortInUse` (server.go:158-161). -/
def IsUDPPortInUse (s : SState) (port : Int) : Bool :=
  (mload s.portOwners port).isSome

/-- The registration check of `handleControlConnFromReader`
(server.go:252-259): `tunnelID` must occur as a value of `subdomainMap`. -/
def isRegistered (s : SState) (tunnelID : String) : Bool :=
  s.subdomainMap.any (fun kv => kv.2 == tunnelID)

/-- `handleControlConnFromReader` after a valid JWT (server.go:252-287):
reject if the tunnel is not registered; otherwise close any previously
stored `ClientConn` (`clients.LoadAndDelete` + `close`) and store the new
one, whose `pendingTCP` map starts empty. -/
def authHandshake (s : SState) (tunnelID : String) (cid : Nat) : SState :=
  if isRegistered s tunnelID then
    let closedOld := match mload s.clients tunnelID with
      | some old => [old.cid]
      | none => []
    { s with clients := mstore s.clients tunnelID ⟨cid, []⟩
             closedClients := closedOld ++ s.closedClients }
  else s

/-- End of `readControlLoop` (server.go:285): `clients.CompareAndDelete`
removes the entry only if it still holds this very connection. -/
def clientDisconnect (s : SState) (tunnelID : String) (cid : Nat) : SState :=
  match mload s.clients tunnelID with
  | some c => if c.cid = cid then { s with clients := mdelete s.clients tunnelID } else s
  | none => s

/-- `Server.handleUDPPacket` (server.go:357-371): drop the datagram when no
client is connected for the tunnel; otherwise upsert the persistent
`udpPlayerMap` entry keyed by the peer's address string.  `pc`, `tunnelID`
and the local port are the values captured by the listener goroutine; the
datagram payload only feeds the emitted `UDP_PKT` line, modelled separately
by `udpPktLine`. -/
def handleUDPPacket (s : SState) (pc : Nat) (addr : String) (tunnelID : String) : SState :=
  match mload s.clients tunnelID with
  | none => s
  | some _ => { s with udpPlayerMap := mstore s.udpPlayerMap addr ⟨pc, addr⟩ }

/-! ### Hex encoding and the control-channel lines the server emits -/

/-- One lower-case hex digit, as produced by Go's `encoding/hex`. -/
def hexDigitChar (n : Nat) : Char :=
  if n < 10 then Char.ofNat (48 + n) else Char.ofNat (87 + n)

/-- `hex.EncodeToString`: every byte becomes its high then low nibble. -/
def hexEncode : List Nat → List Char
  | [] => []
  | b :: rest => hexDigitChar (b / 16 % 16) :: hexDigitChar (b % 16) :: hexEncode rest

/-- Value of one hex digit, accepting both cases (`encoding/hex` does). -/
def hexDigitVal (c : Char) : Option Nat :=
  if 48 ≤ c.toNat ∧ c.toNat ≤ 57 then some (c.toNat - 48)
  else if 97 ≤ c.toNat ∧ c.toNat ≤ 102 then some (c.toNat - 87)
  else if 65 ≤ c.toNat ∧ c.toNat ≤ 70 then some (c.toNat - 55)
  else none

/-- `hex.DecodeString`: fails on an odd length or a non-hex digit. -/
def hexDecode : List Char → Option (List Nat)
  | [] => some []
  | [_] => none
  | a :: b :: rest =>
    match hexDigitVal a, hexDigitVal b, hexDecode rest with
    | some x, some y, some ds => some ((16 * x + y) :: ds)
    | _, _, _ => none

theorem hexEncode_length (l : List Nat) : (hexEncode l).length = 2 * l.length := by
  induction l with
  | nil => rfl
  | cons b rest ih => simp [hexEncode, ih]; ring

/-- `ClientConn.send` (server.go:430-438) appends a newline to the message. -/
def sendLine (msg : List Char) : List Char := msg ++ ['\n']

/-- `conn.Write([]byte("OK\n"))` (server.go:235 and :279). -/
def okLine : List Char := "OK\n".data

/-- `conn.Write([]byte("ERROR <reason>\n"))` (server.go:224, :238, :245, :261). -/
def errorLine (reason : List Char) : List Char := "ERROR ".data ++ reason ++ ['\n']

/-- `client.send("PING")` (server.go:327). -/
def pingLine : List Char := sendLine "PING".data

/-- `client.send(fmt.Sprintf("OPEN %s %d", connID, port))` (mc_proxy.go:96,
HTTP proxy). -/
def openLine (connID : List Char) (localPort : Int) : List Char :=
  sendLine ("OPEN ".data ++ connID ++ [' '] ++ (toString localPort).data)

/-- `client.send(fmt.Sprintf("UDP_PKT %s %d %s", connID, localPort,
hexData))` (server.go:369-370). -/
def udpPktLine (connID : List Char) (localPort : Int) (data : List Nat) : List Char :=
  sendLine ("UDP_PKT ".data ++ connID ++ [' '] ++ (toString localPort).data ++ [' ']
    ++ hexEncode data)

/-- The `UDP_REPLY` case of `readControlLoop` (server.go:305-318): decode
the hex payload, look `connID` up in the global `udpPlayerMap`, and if
present forward the bytes with `entry.pc.WriteTo(data, entry.addr)`.  The
result is the `(listener, destination, payload)` of that write.  `sender`
is the authenticated `ClientConn` whose control channel carried the line;
the code never consults it when routing the reply. -/
def udpReplyForward (s : SState) (_sender : ClientC) (connID : String)
    (hexPayload : List Char) : Option (Nat × String × List Nat) :=
  match hexDecode hexPayload with
  | none => none
  | some data =>
    match mload s.udpPlayerMap connID with
    | some entry => some (entry.pc, entry.addr, data)
    | none => none

/-! ### Event traces

The state mutators above, driven by the environment (API register and
unregister calls, client authentications and disconnects, inbound
datagrams).  `bindOk` on a `reg` event records whether the UDP bind in
`startUDPPortListener` succeeds; the `pkt` parameters are the values the
listener goroutine captured when it was started. -/

inductive Ev where
  | reg (r : TunnelRegistration) (bindOk : Bool)
  | unreg (tunnelID subdomain : String) (udpPublicPort : Option Int)
  | auth (tunnelID : String) (cid : Nat)
  | disc (tunnelID : String) (cid : Nat)
  | pkt (pc : Nat) (addr : String) (tunnelID : String)
deriving DecidableEq, Repr

def applyEv (s : SState) : Ev → SState
  | .reg r bindOk => RegisterTunnel s r bindOk
  | .unreg t sb pp => UnregisterTunnel s t sb pp
  | .auth t c => authHandshake s t c
  | .disc t c => clientDisconnect s t c
  | .pkt pc a t => handleUDPPacket s pc a t

def stateRun (s : SState) (evs : List Ev) : SState := evs.foldl applyEv s

/-- Every `reg` event in the trace has a successful UDP bind. -/
def allBindsOk (evs : List Ev) : Bool :=
  evs.all fun ev => match ev with
    | .reg _ bindOk => bindOk
    | _ => true

/-! ### The registry the spec speaks about

"Currently registered tunnels" as induced by the trace: each `reg` call
registers its `TunnelRegistration`, each `unreg` removes the entry with
the given tunnel id.  `wfChk` is the well-formedness discipline of the
administrative layer: fresh tunnel id / subdomain / UDP port on register,
and an unregister that matches a currently registered tunnel exactly. -/

def registryStep (g : List TunnelRegistration) : Ev → List TunnelRegistration
  | .reg r _ => r :: g
  | .unreg t _ _ => g.filter (fun e => !(e.TunnelID == t))
  | _ => g

def registryRun (g : List TunnelRegistration) (evs : List Ev) : List TunnelRegistration :=
  evs.foldl registryStep g

def freshReg (g : List TunnelRegistration) (r : TunnelRegistration) : Bool :=
  g.all (fun e => !(e.TunnelID == r.TunnelID) && !(e.Subdomain == r.Subdomain)) &&
  (match r.UDPPublicPort with
   | none => true
   | some p => g.all (fun e => !(e.UDPPublicPort == some p)))

def matchEntry (t sb : String) (pp : Option Int) (e : TunnelRegistration) : Bool :=
  e.TunnelID == t && e.Subdomain == sb && e.UDPPublicPort == pp

def wfChk : List TunnelRegistration → List Ev → Bool
  | _, [] => true
  | g, .reg r _ :: evs => freshReg g r && wfChk (r :: g) evs
  | g, .unreg t sb pp :: evs =>
    g.any (matchEntry t sb pp) && wfChk (g.filter (fun e => !(e.TunnelID == t))) evs
  | g, _ :: evs => wfChk g evs

/-! ### Data-channel pairing (`handleNewConn` / `handleDataConn`)

`handleNewConn` (server.go:229-236) answers `DATA <conn_id>` with `OK\n`
unconditionally, before `handleDataConn` (server.go:375-399) searches the
connected clients for a pending rendezvous with that id; an unmatched
data connection is then simply closed. -/

inductive DataOutcome where
  | paired (tunnelID : String) (ch : Nat)
  | closedUnpaired
deriving DecidableEq, Repr

/-- The `clients.Range` search of `handleDataConn`: the first client (in
map iteration order) holding a pending entry for `connID`, with that
entry's rendezvous channel. -/
def findPendingClient (clients : List (String × ClientC)) (connID : String) :
    Option (String × Nat) :=
  match clients.find? (fun kv => (mload kv.2.pending connID).isSome) with
  | some kv =>
    match mload kv.2.pending connID with
    | some ch => some (kv.1, ch)
    | none => none
  | none => none

/-- The `DATA` branch of `handleNewConn` followed by `handleDataConn`:
the lines written to the inbound connection, and what became of it. -/
def dataConnStep (s : SState) (connID : String) : List (List Char) × DataOutcome :=
  ([okLine],
   match findPendingClient s.clients connID with
   | some (t, ch) => .paired t ch
   | none => .closedUnpaired)

/-! ### Subdomain extraction (`mc_proxy.go:208-233`, HTTP proxy)

Modelled over `List Char`.  `splitHostPort` is the behaviour of Go's
`net.SplitHostPort` restricted to the host result (`none` = the error
case, in which the callers keep the address unchanged).  Case conversion
models `strings.ToLower` via `Char.toLower` (ASCII folding). -/

/-- Index of the last occurrence of `c` (Go's `last` helper inside
`net.SplitHostPort`). -/
def lastIdxOf (l : List Char) (c : Char) : Option Nat :=
  match l.reverse.findIdx? (fun x => x == c) with
  | some j => some (l.length - 1 - j)
  | none => none

/-- `net.SplitHostPort`, host component; `none` on any of its errors
(missing port, too many colons, bracket problems). -/
def splitHostPort (hp : List Char) : Option (List Char) :=
  match lastIdxOf hp ':' with
  | none => none
  | some i =>
    if hp.head? = some '[' then
      match hp.findIdx? (fun x => x == ']') with
      | none => none
      | some en =>
        if en + 1 = hp.length then none
        else if en + 1 = i then
          let host := (hp.take en).drop 1
          if (hp.drop 1).contains '[' then none
          else if (hp.drop (en + 1)).contains ']' then none
          else some host
        else none
    else
      let host := hp.take i
      if host.contains ':' then none
      else if hp.contains '[' then none
      else if hp.contains ']' then none
      else some host

/-- The port-stripping step both proxies use: keep the address unchanged
when `net.SplitHostPort` errors. -/
def stripPort (addr : List Char) : List Char :=
  match splitHostPort addr with
  | some host => host
  | none => addr

/-- `strings.SplitN(addr, ".", 2)[0]`: everything before the first dot. -/
def firstLabel (l : List Char) : List Char :=
  l.takeWhile (fun c => !(c == '.'))

/-- `parts[len(parts)-1]` of `strings.Split(l, ".")`: everything after the
last dot. -/
def lastLabel (l : List Char) : List Char :=
  (l.reverse.takeWhile (fun c => !(c == '.'))).reverse

/-- `extractSubdomainFromAddr` (mc_proxy.go:208-233): strip an optional
port, lower-case both strings, and either peel the `"." + domain` suffix
and take the last remaining label, or fall back to the first label. -/
def extractSubdomainFromAddr (addr domain : List Char) : List Char :=
  let addr1 := stripPort addr
  let addr2 := addr1.map Char.toLower
  let dom := domain.map Char.toLower
  let suffix := '.' :: dom
  if suffix.isSuffixOf addr2 then
    lastLabel (addr2.take (addr2.length - suffix.length))
  else
    firstLabel addr2

/-- The subdomain computation of `handleHTTPConnection` (HTTP proxy file,
lines 88-96): strip the port from the `Host` header value, then apply
`extractSubdomainFromAddr`. -/
def httpHostSubdomain (hostHeader domain : List Char) : List Char :=
  extractSubdomainFromAddr (stripPort hostHeader) domain

/-- The extraction rule in the spec's words (§4.C step 3), applied to an
address that has already been port-stripped and lower-cased: if the
address ends with `"." + domain`, remove that suffix and take the last
dot-separated label of what remains; otherwise take the first
dot-separated label of the address. -/
def specSubdomain (addr domain : List Char) : List Char :=
  if ('.' :: domain).isSuffixOf addr then
    lastLabel (addr.take (addr.length - (domain.length + 1)))
  else
    firstLabel addr

/-! ### Minecraft handshake parser (`mc_proxy.go:114-203`)

The byte stream read from the player connection is a `List Nat` of byte
values; reading past the end is the `io.ReadFull` error.  On success the
parser returns the sanitised server-address bytes together with every
byte that was read from the connection (the `raw` tee buffer). -/

/-- The `readVarInt` closures (mc_proxy.go:121-137, 153-169): 7 data bits
per byte, high bit continues, rejected once the shift reaches 35. -/
def readVarInt : List Nat → Nat → Nat → Except String (Nat × List Nat)
  | [], _, _ => .error "EOF"
  | b :: rest, shift, result =>
    let result' := result ||| ((b &&& 127) <<< shift)
    if b &&& 128 == 0 then .ok (result', rest)
    else if shift + 7 ≥ 35 then .error "VarInt too large"
    else readVarInt rest (shift + 7) result'

/-- Address sanitisation (mc_proxy.go:194-200): cut at the first NUL byte
(`strings.IndexByte`), then `strings.TrimSuffix(addr, ".")`. -/
def sanitizeAddr (bs : List Nat) : List Nat :=
  let s1 := match bs.findIdx? (fun b => b == 0) with
    | some i => bs.take i
    | none => bs
  if s1.getLast? = some 46 then s1.dropLast else s1

/-- The same sanitisation in the spec's words (§4.C step 2): strip
everything from the first NUL byte onward, then trim a trailing dot. -/
def specSanitize (bs : List Nat) : List Nat :=
  let t := bs.takeWhile (fun b => !(b == 0))
  if t.getLast? = some 46 then t.dropLast else t

/-- `parseMinecraftHandshake` (mc_proxy.go:114-203): packet-length VarInt
(must be in `[1, 32768]`), whole packet body, then from the body packet id
(must be 0), protocol version, string length (must be in `[1, 255]`) and
the address bytes.  Returns the sanitised address and the mirrored bytes
`lenBytes ++ pktBody`. -/
def parseMinecraftHandshake (input : List Nat) : Except String (List Nat × List Nat) :=
  match readVarInt input 0 0 with
  | .error e => .error e
  | .ok (pktLen, r1) =>
    if pktLen = 0 ∨ 32768 < pktLen then .error "bad packet length"
    else if r1.length < pktLen then .error "EOF"
    else
      let lenBytes := input.take (input.length - r1.length)
      let pktBody := r1.take pktLen
      match readVarInt pktBody 0 0 with
      | .error e => .error e
      | .ok (pktID, b1) =>
        if pktID ≠ 0 then .error "expected handshake"
        else
          match readVarInt b1 0 0 with
          | .error e => .error e
          | .ok (_, b2) =>
            match readVarInt b2 0 0 with
            | .error e => .error e
            | .ok (strLen, b3) =>
              if strLen = 0 ∨ 255 < strLen then .error "bad server address length"
              else if b3.length < strLen then .error "EOF"
              else .ok (sanitizeAddr (b3.take strLen), lenBytes ++ pktBody)

/-- `true` iff the parse failed (the handler then closes only the player
connection and returns, mc_proxy.go:62-66). -/
def parseFailed (input : List Nat) : Bool :=
  match parseMinecraftHandshake input with
  | .error _ => true
  | .ok _ => false

/-! ## Claims -/

/-- C1: for every tunnel id, a second successful AUTH handshake closes the
previously stored `ClientConn` before storing the new one, leaving exactly
one binding for that tunnel id, holding the later connection, which is
still live (not closed) provided it was fresh. -/
theorem c1_client_replacement (s : SState) (tid : String) (c1 c2 : Nat)
    (hreg : isRegistered s tid = true)
    (hne : c1 ≠ c2)
    (hnotclosed : c2 ∉ s.closedClients)
    (hfresh : ∀ old, mload s.clients tid = some old → old.cid ≠ c2) :
    countKey (authHandshake (authHandshake s tid c1) tid c2).clients tid = 1 ∧
    mload (authHandshake (authHandshake s tid c1) tid c2).clients tid = some ⟨c2, []⟩ ∧
    c1 ∈ (authHandshake (authHandshake s tid c1) tid c2).closedClients ∧
    c2 ∉ (authHandshake (authHandshake s tid c1) tid c2).closedClients := by
  have hreg1 : isRegistered (authHandshake s tid c1) tid = true := by
    unfold authHandshake
    rw [if_pos hreg]
    exact hreg
  have hload1 : mload (authHandshake s tid c1).clients tid = some ⟨c1, []⟩ := by
    unfold authHandshake
    rw [if_pos hreg]
    exact mload_mstore_self s.clients tid ⟨c1, []⟩
  have hclosed1 : ∀ x, x ∈ (authHandshake s tid c1).closedClients → x ≠ c2 := by
    unfold authHandshake
    rw [if_pos hreg]
    intro x hx
    simp only [List.mem_append] at hx
    rcases hx with hx | hx
    · rcases hm : mload s.clients tid with _ | old
      · rw [hm] at hx; simp at hx
      · rw [hm] at hx
        simp only [List.mem_singleton] at hx
        exact hx ▸ hfresh old hm
    · exact fun he => hnotclosed (he ▸ hx)
  constructor
  · conv_lhs => rw [authHandshake, if_pos hreg1]
    exact countKey_mstore_self _ tid (⟨c2, []⟩ : ClientC)
  constructor
  · conv_lhs => rw [authHandshake, if_pos hreg1]
    exact mload_mstore_self _ tid (⟨c2, []⟩ : ClientC)
  constructor
  · rw [authHandshake, if_pos hreg1, hload1]
    simp
  · rw [authHandshake, if_pos hreg1, hload1]
    simp only [List.mem_append, List.mem_singleton, not_or]
    refine ⟨fun he => hne he.symm, fun hmem => ?_⟩
    exact hclosed1 c2 hmem rfl

/-- Witness for C1 at a freshly registered tunnel. -/
theorem c1_client_replacement_witness :
    mload (authHandshake (authHandshake
        (RegisterTunnel initState ⟨"t1", "a", 25565, none, 24454, none⟩ true)
        "t1" 1) "t1" 2).clients "t1" = some (⟨2, []⟩ : ClientC) :=
  (c1_client_replacement (RegisterTunnel initState ⟨"t1", "a", 25565, none, 24454, none⟩ true)
    "t1" 1 2 (by decide) (by decide) (by decide)
    (fun old h => by simp [RegisterTunnel, initState, mload] at h)).2.1

/-- C2: `extractSubdomainFromAddr` equals the spec's extraction rule
applied to the port-stripped, lower-cased address and lower-cased domain,
and the HTTP proxy applies the very same function to the port-stripped
`Host` value. -/
theorem c2_subdomain_extraction (addr domain : List Char) :
    extractSubdomainFromAddr addr domain =
      specSubdomain ((stripPort addr).map Char.toLower) (domain.map Char.toLower) ∧
    httpHostSubdomain addr domain = extractSubdomainFromAddr (stripPort addr) domain :=
  ⟨rfl, rfl⟩

/-- C7 counterexample: a registered tunnel with a UDP port receives a
datagram (creating a UDP session), then is unregistered.  The listener is
closed, yet the session record is still in the `conn_id → UDPSession`
map — the code never removes `udpPlayerMap` entries. -/
theorem c7_counterexample :
    mload (stateRun initState
        [.reg ⟨"t1", "a", 25565, none, 24454, some 20000⟩ true,
         .auth "t1" 1,
         .pkt 0 "1.2.3.4:5" "t1",
         .unreg "t1" "a" (some 20000)]).udpPlayerMap "1.2.3.4:5" =
      some ⟨0, "1.2.3.4:5"⟩ ∧
    0 ∈ (stateRun initState
        [.reg ⟨"t1", "a", 25565, none, 24454, some 20000⟩ true,
         .auth "t1" 1,
         .pkt 0 "1.2.3.4:5" "t1",
         .unreg "t1" "a" (some 20000)]).closedListeners := by
  decide

/-- C7 amended: `UnregisterTunnel` closes the tunnel's UDP listener but
leaves the `conn_id → UDPSession` map (`udpPlayerMap`) completely
untouched; session records persist after the owning listener is closed. -/
theorem c7_amended_sessions_persist (s : SState) (tid sb : String) (pp : Option Int) :
    (UnregisterTunnel s tid sb pp).udpPlayerMap = s.udpPlayerMap := by
  rcases pp with _ | p <;>
    simp only [UnregisterTunnel] <;>
    (repeat' split) <;> rfl

/-- C9: the `UDP_REPLY` handler routes through the global
`conn_id → UDPSession` map only; the authenticated sender is never
consulted, so any two clients (in particular ones authenticated for
different tunnels) sending the same `UDP_REPLY` line cause the identical
write to the identical peer. -/
theorem c9_udp_reply_no_ownership_check (s : SState) (sender1 sender2 : ClientC)
    (connID : String) (hexPayload : List Char) :
    udpReplyForward s sender1 connID hexPayload =
      udpReplyForward s sender2 connID hexPayload ∧
    udpReplyForward s sender1 connID hexPayload =
      (match hexDecode hexPayload, mload s.udpPlayerMap connID with
       | some data, some entry => some (entry.pc, entry.addr, data)
       | _, _ => none) := by
  refine ⟨rfl, ?_⟩
  unfold udpReplyForward
  cases hexDecode hexPayload <;> cases mload s.udpPlayerMap connID <;> rfl

/-- C10: on a `DATA <conn_id>` connection the server writes `OK` before
searching for a pending rendezvous; when no connected client holds a
pending entry for that id, the connection has still received `OK` and is
closed unpaired. -/
theorem c10_data_ok_before_search (s : SState) (connID : String) :
    (dataConnStep s connID).1 = [okLine] ∧
    ((∀ kv ∈ s.clients, mload kv.2.pending connID = none) →
      (dataConnStep s connID).2 = .closedUnpaired) := by
  refine ⟨rfl, fun h => ?_⟩
  unfold dataConnStep findPendingClient
  have hf : s.clients.find? (fun kv => (mload kv.2.pending connID).isSome) = none := by
    rw [List.find?_eq_none]
    intro kv hm
    simp [h kv hm]
  rw [hf]

/-- Witness for C10: with no clients connected, a `DATA` connection gets
`OK` and is closed unpaired. -/
theorem c10_data_ok_before_search_witness :
    (dataConnStep initState "abcd").1 = [okLine] ∧
    (dataConnStep initState "abcd").2 = .closedUnpaired :=
  ⟨(c10_data_ok_before_search initState "abcd").1,
   (c10_data_ok_before_search initState "abcd").2 (fun kv h => absurd h (by simp [initState]))⟩

theorem udpPktLine_length (connID : List Char) (lp : Int) (data : List Nat) :
    (udpPktLine connID lp data).length =
      connID.length + (toString lp).data.length + 2 * data.length + 11 := by
  simp [udpPktLine, sendLine, hexEncode_length, List.length_append]
  ring

/-- C8 counterexample: a `UDP_PKT` line for a maximum-size inbound
datagram (65535 bytes, within the listener's read buffer) is about
128 KiB — far above the claimed 64 KiB (65536 byte) bound. -/
theorem c8_counterexample :
    65536 < (udpPktLine "1.2.3.4:5".data 24454 (List.replicate 65535 0)).length ∧
    (List.replicate 65535 (0 : Nat)).length ≤ 65535 := by
  constructor
  · rw [udpPktLine_length, List.length_replicate]
    have h9 : ("1.2.3.4:5".data).length = 9 := by decide
    have h5 : ((toString (24454 : Int)).data).length = 5 := by decide
    rw [h9, h5]
    norm_num
  · rw [List.length_replicate]

/-- C8 amended: `OK`, `PING`, `ERROR` and `OPEN` lines are short (their
length is a small constant plus the reason/conn-id/port digits), but a
`UDP_PKT` line is `|conn_id| + |port digits| + 2·|payload| + 11` bytes
long, so with payloads up to 65535 bytes it can exceed 64 KiB, reaching
about 128 KiB. -/
theorem c8_amended_line_lengths (connID reason : List Char) (lp : Int) (data : List Nat) :
    okLine.length = 3 ∧
    pingLine.length = 5 ∧
    (errorLine reason).length = reason.length + 7 ∧
    (openLine connID lp).length = connID.length + (toString lp).data.length + 7 ∧
    (udpPktLine connID lp data).length =
      connID.length + (toString lp).data.length + 2 * data.length + 11 := by
  refine ⟨by decide, by simp [pingLine, sendLine], ?_, ?_, udpPktLine_length connID lp data⟩
  · simp [errorLine, List.length_append]
    try ring
  · simp [openLine, sendLine, List.length_append]
    try ring

/-! ### Field lemmas for the registration operations -/

theorem RegisterTunnel_subdomainMap (s : SState) (r : TunnelRegistration) (b : Bool) :
    (RegisterTunnel s r b).subdomainMap = mstore s.subdomainMap r.Subdomain r.TunnelID := by
  unfold RegisterTunnel
  dsimp only
  (repeat' split) <;> rfl

theorem RegisterTunnel_tunnelMCPort (s : SState) (r : TunnelRegistration) (b : Bool) :
    (RegisterTunnel s r b).tunnelMCPort = mstore s.tunnelMCPort r.TunnelID r.MCLocalPort := by
  unfold RegisterTunnel
  dsimp only
  (repeat' split) <;> rfl

theorem RegisterTunnel_tunnelHTTPPort (s : SState) (r : TunnelRegistration) (b : Bool) :
    (RegisterTunnel s r b).tunnelHTTPPort =
      (match r.HTTPLocalPort with
       | some p => mstore s.tunnelHTTPPort r.TunnelID p
       | none => mdelete s.tunnelHTTPPort r.TunnelID) := by
  unfold RegisterTunnel
  dsimp only
  (repeat' split) <;> rfl

theorem RegisterTunnel_clients (s : SState) (r : TunnelRegistration) (b : Bool) :
    (RegisterTunnel s r b).clients = s.clients := by
  unfold RegisterTunnel
  dsimp only
  (repeat' split) <;> rfl

theorem RegisterTunnel_udpPlayerMap (s : SState) (r : TunnelRegistration) (b : Bool) :
    (RegisterTunnel s r b).udpPlayerMap = s.udpPlayerMap := by
  unfold RegisterTunnel
  dsimp only
  (repeat' split) <;> rfl

theorem RegisterTunnel_udp_none (s : SState) (r : TunnelRegistration) (b : Bool)
    (hp : r.UDPPublicPort = none) :
    (RegisterTunnel s r b).portOwners = s.portOwners ∧
    (RegisterTunnel s r b).portLocalMap = s.portLocalMap ∧
    (RegisterTunnel s r b).udpListeners = s.udpListeners := by
  unfold RegisterTunnel
  rw [hp]
  cases r.HTTPLocalPort <;> exact ⟨rfl, rfl, rfl⟩

theorem RegisterTunnel_udp_skip (s : SState) (r : TunnelRegistration) (b : Bool) (p : Int)
    (hp : r.UDPPublicPort = some p) (hl : (mload s.udpListeners p).isSome = true) :
    (RegisterTunnel s r b).portOwners = s.portOwners ∧
    (RegisterTunnel s r b).portLocalMap = s.portLocalMap ∧
    (RegisterTunnel s r b).udpListeners = s.udpListeners := by
  unfold RegisterTunnel
  rw [hp]
  cases r.HTTPLocalPort <;> simp only [] <;> rw [if_pos hl] <;> exact ⟨rfl, rfl, rfl⟩

theorem RegisterTunnel_udp_fresh (s : SState) (r : TunnelRegistration) (p : Int)
    (hp : r.UDPPublicPort = some p) (hl : (mload s.udpListeners p).isSome = false) :
    (RegisterTunnel s r true).portOwners = mstore s.portOwners p r.TunnelID ∧
    (RegisterTunnel s r true).portLocalMap = mstore s.portLocalMap p r.UDPLocalPort ∧
    (RegisterTunnel s r true).udpListeners = mstore s.udpListeners p s.nextLid := by
  unfold RegisterTunnel
  rw [hp]
  cases r.HTTPLocalPort <;> simp only [] <;> rw [if_neg (by simp [hl])] <;>
    exact ⟨rfl, rfl, rfl⟩

theorem RegisterTunnel_udp_bindfail (s : SState) (r : TunnelRegistration) (p : Int)
    (hp : r.UDPPublicPort = some p) (hl : (mload s.udpListeners p).isSome = false) :
    (RegisterTunnel s r false).portOwners = mstore s.portOwners p r.TunnelID ∧
    (RegisterTunnel s r false).portLocalMap = mstore s.portLocalMap p r.UDPLocalPort ∧
    (RegisterTunnel s r false).udpListeners = s.udpListeners := by
  unfold RegisterTunnel
  rw [hp]
  cases r.HTTPLocalPort <;> simp only [] <;> rw [if_neg (by simp [hl])] <;>
    exact ⟨rfl, rfl, rfl⟩

theorem UnregisterTunnel_subdomainMap (s : SState) (t sb : String) (pp : Option Int) :
    (UnregisterTunnel s t sb pp).subdomainMap = mdelete s.subdomainMap sb := by
  unfold UnregisterTunnel
  dsimp only
  (repeat' split) <;> rfl

theorem UnregisterTunnel_tunnelMCPort (s : SState) (t sb : String) (pp : Option Int) :
    (UnregisterTunnel s t sb pp).tunnelMCPort = mdelete s.tunnelMCPort t := by
  unfold UnregisterTunnel
  dsimp only
  (repeat' split) <;> rfl

theorem UnregisterTunnel_tunnelHTTPPort (s : SState) (t sb : String) (pp : Option Int) :
    (UnregisterTunnel s t sb pp).tunnelHTTPPort = mdelete s.tunnelHTTPPort t := by
  unfold UnregisterTunnel
  dsimp only
  (repeat' split) <;> rfl

theorem UnregisterTunnel_portOwners (s : SState) (t sb : String) (pp : Option Int) :
    (UnregisterTunnel s t sb pp).portOwners =
      (match pp with | some p => mdelete s.portOwners p | none => s.portOwners) := by
  cases pp <;> unfold UnregisterTunnel <;> dsimp only <;> (repeat' split) <;> rfl

theorem UnregisterTunnel_portLocalMap (s : SState) (t sb : String) (pp : Option Int) :
    (UnregisterTunnel s t sb pp).portLocalMap =
      (match pp with | some p => mdelete s.portLocalMap p | none => s.portLocalMap) := by
  cases pp <;> unfold UnregisterTunnel <;> dsimp only <;> (repeat' split) <;> rfl

theorem UnregisterTunnel_udpListeners (s : SState) (t sb : String) (pp : Option Int) :
    (UnregisterTunnel s t sb pp).udpListeners =
      (match pp with | some p => mdelete s.udpListeners p | none => s.udpListeners) := by
  cases pp with
  | none => unfold UnregisterTunnel; dsimp only; (repeat' split) <;> rfl
  | some p =>
    unfold UnregisterTunnel
    dsimp only
    rcases hl : mload s.udpListeners p with _ | lid
    · have h2 : mdelete s.udpListeners p = s.udpListeners := mdelete_eq_self _ _ hl
      (repeat' split) <;> simp_all
    · (repeat' split) <;> simp_all

/-- C6 counterexample: register/unregister is not a no-op on every state.
Starting from a state where subdomain `"a"` routes to tunnel `"t0"`,
registering tunnel `"t1"` on the same subdomain and then unregistering it
leaves the subdomain map empty — `"t0"`'s entry is not restored. -/
theorem c6_counterexample :
    ¬ ((UnregisterTunnel
          (RegisterTunnel (RegisterTunnel initState ⟨"t0", "a", 25565, none, 24454, none⟩ true)
            ⟨"t1", "a", 25566, none, 24455, none⟩ true)
          "t1" "a" none).subdomainMap =
        (RegisterTunnel initState ⟨"t0", "a", 25565, none, 24454, none⟩ true).subdomainMap) := by
  decide

/-- C6 amended: a `RegisterTunnel` followed by the matching
`UnregisterTunnel` restores the routing tables (subdomain map, local-port
maps, UDP indices, listener set) to their prior state, provided the
registration was fresh: no prior entries under its subdomain, tunnel id,
or UDP public port (and the UDP bind succeeds). -/
theorem c6_amended_register_unregister_restores (s : SState) (r : TunnelRegistration)
    (hsub : mload s.subdomainMap r.Subdomain = none)
    (hmc : mload s.tunnelMCPort r.TunnelID = none)
    (hhttp : mload s.tunnelHTTPPort r.TunnelID = none)
    (hudp : ∀ p, r.UDPPublicPort = some p →
      mload s.portOwners p = none ∧ mload s.portLocalMap p = none ∧
        mload s.udpListeners p = none) :
    (UnregisterTunnel (RegisterTunnel s r true) r.TunnelID r.Subdomain
        r.UDPPublicPort).subdomainMap = s.subdomainMap ∧
    (UnregisterTunnel (RegisterTunnel s r true) r.TunnelID r.Subdomain
        r.UDPPublicPort).tunnelMCPort = s.tunnelMCPort ∧
    (UnregisterTunnel (RegisterTunnel s r true) r.TunnelID r.Subdomain
        r.UDPPublicPort).tunnelHTTPPort = s.tunnelHTTPPort ∧
    (UnregisterTunnel (RegisterTunnel s r true) r.TunnelID r.Subdomain
        r.UDPPublicPort).portOwners = s.portOwners ∧
    (UnregisterTunnel (RegisterTunnel s r true) r.TunnelID r.Subdomain
        r.UDPPublicPort).portLocalMap = s.portLocalMap ∧
    (UnregisterTunnel (RegisterTunnel s r true) r.TunnelID r.Subdomain
        r.UDPPublicPort).udpListeners = s.udpListeners := by
  refine ⟨?_, ?_, ?_, ?_, ?_, ?_⟩
  · rw [UnregisterTunnel_subdomainMap, RegisterTunnel_subdomainMap,
      mdelete_mstore_self, mdelete_eq_self _ _ hsub]
  · rw [UnregisterTunnel_tunnelMCPort, RegisterTunnel_tunnelMCPort,
      mdelete_mstore_self, mdelete_eq_self _ _ hmc]
  · rw [UnregisterTunnel_tunnelHTTPPort, RegisterTunnel_tunnelHTTPPort]
    rcases hh : r.HTTPLocalPort with _ | p
    · rw [mdelete_eq_self _ _ hhttp, mdelete_eq_self _ _ hhttp]
    · rw [mdelete_mstore_self, mdelete_eq_self _ _ hhttp]
  · rcases hp : r.UDPPublicPort with _ | p
    · rw [UnregisterTunnel_portOwners]
      exact (RegisterTunnel_udp_none _ _ _ hp).1
    · obtain ⟨ho, _, hl⟩ := hudp p hp
      rw [UnregisterTunnel_portOwners]
      rw [(RegisterTunnel_udp_fresh s r p hp (by simp [hl])).1]
      dsimp only
      rw [mdelete_mstore_self, mdelete_eq_self _ _ ho]
  · rcases hp : r.UDPPublicPort with _ | p
    · rw [UnregisterTunnel_portLocalMap]
      exact (RegisterTunnel_udp_none _ _ _ hp).2.1
    · obtain ⟨_, hlm, hl⟩ := hudp p hp
      rw [UnregisterTunnel_portLocalMap]
      rw [(RegisterTunnel_udp_fresh s r p hp (by simp [hl])).2.1]
      dsimp only
      rw [mdelete_mstore_self, mdelete_eq_self _ _ hlm]
  · rcases hp : r.UDPPublicPort with _ | p
    · rw [UnregisterTunnel_udpListeners]
      exact (RegisterTunnel_udp_none _ _ _ hp).2.2
    · obtain ⟨_, _, hl⟩ := hudp p hp
      rw [UnregisterTunnel_udpListeners]
      rw [(RegisterTunnel_udp_fresh s r p hp (by simp [hl])).2.2]
      dsimp only
      rw [mdelete_mstore_self, mdelete_eq_self _ _ hl]

/-- Witness for C6 amended: a fresh registration on the empty state,
including a UDP public port, is fully rolled back by its unregister. -/
theorem c6_amended_register_unregister_restores_witness :
    (UnregisterTunnel
        (RegisterTunnel initState ⟨"t1", "a", 25565, some 8123, 24454, some 20000⟩ true)
        "t1" "a" (some 20000)).subdomainMap = initState.subdomainMap :=
  (c6_amended_register_unregister_restores initState
    ⟨"t1", "a", 25565, some 8123, 24454, some 20000⟩
    rfl rfl rfl (fun _ _ => ⟨rfl, rfl, rfl⟩)).1

/-! ### C4: the three UDP indices move together -/

/-- A `udp_public_port` is present in `portOwners`, `portLocalMap` and
`udpListeners` together, or in none of them. -/
def UDPSync3 (s : SState) : Prop :=
  ∀ p : Int, (mload s.portOwners p).isSome = (mload s.portLocalMap p).isSome ∧
    (mload s.portOwners p).isSome = (mload s.udpListeners p).isSome

theorem authHandshake_udp_fields (s : SState) (t : String) (c : Nat) :
    (authHandshake s t c).portOwners = s.portOwners ∧
    (authHandshake s t c).portLocalMap = s.portLocalMap ∧
    (authHandshake s t c).udpListeners = s.udpListeners := by
  unfold authHandshake
  dsimp only
  (repeat' split) <;> exact ⟨rfl, rfl, rfl⟩

theorem clientDisconnect_udp_fields (s : SState) (t : String) (c : Nat) :
    (clientDisconnect s t c).portOwners = s.portOwners ∧
    (clientDisconnect s t c).portLocalMap = s.portLocalMap ∧
    (clientDisconnect s t c).udpListeners = s.udpListeners := by
  unfold clientDisconnect
  (repeat' split) <;> exact ⟨rfl, rfl, rfl⟩

theorem handleUDPPacket_udp_fields (s : SState) (pc : Nat) (a t : String) :
    (handleUDPPacket s pc a t).portOwners = s.portOwners ∧
    (handleUDPPacket s pc a t).portLocalMap = s.portLocalMap ∧
    (handleUDPPacket s pc a t).udpListeners = s.udpListeners := by
  unfold handleUDPPacket
  (repeat' split) <;> exact ⟨rfl, rfl, rfl⟩

theorem UDPSync3_register (s : SState) (r : TunnelRegistration) (h : UDPSync3 s) :
    UDPSync3 (RegisterTunnel s r true) := by
  intro p
  rcases hp : r.UDPPublicPort with _ | q
  · obtain ⟨e1, e2, e3⟩ := RegisterTunnel_udp_none s r true hp
    rw [e1, e2, e3]
    exact h p
  · by_cases hl : (mload s.udpListeners q).isSome = true
    · obtain ⟨e1, e2, e3⟩ := RegisterTunnel_udp_skip s r true q hp hl
      rw [e1, e2, e3]
      exact h p
    · have hl' : (mload s.udpListeners q).isSome = false := by
        simpa using hl
      obtain ⟨e1, e2, e3⟩ := RegisterTunnel_udp_fresh s r q hp hl'
      rw [e1, e2, e3]
      by_cases hpq : p = q
      · subst hpq
        rw [mload_mstore_self, mload_mstore_self, mload_mstore_self]
        exact ⟨rfl, rfl⟩
      · rw [mload_mstore_ne _ _ _ _ hpq, mload_mstore_ne _ _ _ _ hpq,
          mload_mstore_ne _ _ _ _ hpq]
        exact h p

theorem UDPSync3_unregister (s : SState) (t sb : String) (pp : Option Int)
    (h : UDPSync3 s) : UDPSync3 (UnregisterTunnel s t sb pp) := by
  intro p
  rw [UnregisterTunnel_portOwners, UnregisterTunnel_portLocalMap,
    UnregisterTunnel_udpListeners]
  rcases pp with _ | q
  · exact h p
  · dsimp only
    by_cases hpq : p = q
    · subst hpq
      rw [mload_mdelete_self, mload_mdelete_self, mload_mdelete_self]
      exact ⟨rfl, rfl⟩
    · rw [mload_mdelete_ne _ _ _ hpq, mload_mdelete_ne _ _ _ hpq,
        mload_mdelete_ne _ _ _ hpq]
      exact h p

theorem UDPSync3_stateRun (evs : List Ev) : ∀ s : SState, UDPSync3 s →
    allBindsOk evs = true → UDPSync3 (stateRun s evs) := by
  induction evs with
  | nil => exact fun s h _ => h
  | cons ev evs ih =>
    intro s h hb
    rw [allBindsOk, List.all_cons, Bool.and_eq_true] at hb
    have hrest : allBindsOk evs = true := hb.2
    have hstep : UDPSync3 (applyEv s ev) := by
      cases ev with
      | reg r b =>
        have : b = true := hb.1
        subst this
        exact UDPSync3_register s r h
      | unreg t sb pp => exact UDPSync3_unregister s t sb pp h
      | auth t c =>
        intro p
        obtain ⟨e1, e2, e3⟩ := authHandshake_udp_fields s t c
        rw [applyEv, e1, e2, e3]
        exact h p
      | disc t c =>
        intro p
        obtain ⟨e1, e2, e3⟩ := clientDisconnect_udp_fields s t c
        rw [applyEv, e1, e2, e3]
        exact h p
      | pkt pc a t =>
        intro p
        obtain ⟨e1, e2, e3⟩ := handleUDPPacket_udp_fields s pc a t
        rw [applyEv, e1, e2, e3]
        exact h p
    have : stateRun s (ev :: evs) = stateRun (applyEv s ev) evs := rfl
    rw [this]
    exact ih (applyEv s ev) hstep hrest

theorem UnregisterTunnel_closes_listener (s : SState) (t sb : String) (p : Int) (l : Nat)
    (hl : mload s.udpListeners p = some l) :
    l ∈ (UnregisterTunnel s t sb (some p)).closedListeners := by
  unfold UnregisterTunnel
  dsimp only
  rw [hl]
  dsimp only
  split <;> simp

/-- C4 counterexample: a `RegisterTunnel` whose UDP bind fails
(`net.ListenPacket` error in `startUDPPortListener`) leaves the port in
`portOwners` (and `portLocalMap`) but never in `udpListeners`: the three
indices are not kept in sync. -/
theorem c4_counterexample :
    (mload (RegisterTunnel initState
        ⟨"t1", "a", 25565, none, 24454, some 20000⟩ false).portOwners 20000).isSome = true ∧
    (mload (RegisterTunnel initState
        ⟨"t1", "a", 25565, none, 24454, some 20000⟩ false).udpListeners 20000).isSome =
      false := by
  decide

/-- C4 amended: provided every UDP listener bind succeeds (and taking the
listener-goroutine store as atomic with registration), every reachable
state keeps a `udp_public_port` in the three UDP indices together or in
none; a registration with a UDP port leaves all three entries present, and
the matching unregistration removes all three and closes the listener. -/
theorem c4_amended_udp_indices (s : SState) (r : TunnelRegistration)
    (t sb : String) (p q : Int) (evs : List Ev)
    (hall : allBindsOk evs = true)
    (hsync : UDPSync3 s)
    (hp : r.UDPPublicPort = some p) :
    UDPSync3 (stateRun initState evs) ∧
    ((mload (RegisterTunnel s r true).portOwners p).isSome = true ∧
      (mload (RegisterTunnel s r true).portLocalMap p).isSome = true ∧
      (mload (RegisterTunnel s r true).udpListeners p).isSome = true) ∧
    (mload (UnregisterTunnel s t sb (some q)).portOwners q = none ∧
      mload (UnregisterTunnel s t sb (some q)).portLocalMap q = none ∧
      mload (UnregisterTunnel s t sb (some q)).udpListeners q = none ∧
      ∀ l, mload s.udpListeners q = some l →
        l ∈ (UnregisterTunnel s t sb (some q)).closedListeners) := by
  refine ⟨UDPSync3_stateRun evs initState (fun _ => ⟨rfl, rfl⟩) hall, ?_, ?_, ?_, ?_, ?_⟩
  · by_cases hl : (mload s.udpListeners p).isSome = true
    · obtain ⟨e1, e2, e3⟩ := RegisterTunnel_udp_skip s r true p hp hl
      rw [e1, e2, e3]
      obtain ⟨h1, h2⟩ := hsync p
      refine ⟨?_, ?_, hl⟩
      · rw [h2]; exact hl
      · rw [← h1, h2]; exact hl
    · have hl' : (mload s.udpListeners p).isSome = false := by simpa using hl
      obtain ⟨e1, e2, e3⟩ := RegisterTunnel_udp_fresh s r p hp hl'
      rw [e1, e2, e3, mload_mstore_self, mload_mstore_self, mload_mstore_self]
      exact ⟨rfl, rfl, rfl⟩
  · rw [UnregisterTunnel_portOwners]
    exact mload_mdelete_self _ _
  · rw [UnregisterTunnel_portLocalMap]
    exact mload_mdelete_self _ _
  · rw [UnregisterTunnel_udpListeners]
    exact mload_mdelete_self _ _
  · exact fun l hl => UnregisterTunnel_closes_listener s t sb q l hl

/-- Witness for C4 amended at a concrete trace, registration and
unregistration. -/
theorem c4_amended_udp_indices_witness :
    (mload (RegisterTunnel initState
        ⟨"t1", "a", 25565, none, 24454, some 20000⟩ true).portOwners 20000).isSome = true ∧
    mload (UnregisterTunnel initState "t2" "b" (some 20001)).portOwners 20001 = none :=
  ⟨((c4_amended_udp_indices initState ⟨"t1", "a", 25565, none, 24454, some 20000⟩
      "t2" "b" 20000 20001 [] rfl (fun _ => ⟨rfl, rfl⟩) rfl).2.1).1,
   ((c4_amended_udp_indices initState ⟨"t1", "a", 25565, none, 24454, some 20000⟩
      "t2" "b" 20000 20001 [] rfl (fun _ => ⟨rfl, rfl⟩) rfl).2.2).1⟩

/-! ### C5: `IsUDPPortInUse` vs the registry -/

/-- Number of currently registered tunnels carrying UDP public port `p`. -/
def occ (g : List TunnelRegistration) (p : Int) : Nat :=
  g.countP (fun e => e.UDPPublicPort == some p)

/-- Number of currently registered tunnels with tunnel id `t`. -/
def tidOcc (g : List TunnelRegistration) (t : String) : Nat :=
  g.countP (fun e => e.TunnelID == t)

/-- Correspondence between the server's UDP port indices and the registry
of currently registered tunnels. -/
def RegInv (s : SState) (g : List TunnelRegistration) : Prop :=
  (∀ p : Int, (mload s.portOwners p).isSome = true ↔ 0 < occ g p) ∧
  (∀ p : Int, occ g p ≤ 1) ∧
  (∀ t : String, tidOcc g t ≤ 1) ∧
  (∀ p : Int, (mload s.udpListeners p).isSome = true → (mload s.portOwners p).isSome = true)

theorem countP_split {α : Type} (l : List α) (p q : α → Bool) :
    l.countP p = l.countP (fun a => p a && q a) + l.countP (fun a => p a && !(q a)) := by
  induction l with
  | nil => rfl
  | cons x xs ih =>
    rw [List.countP_cons, List.countP_cons, List.countP_cons]
    cases hp : p x <;> cases hq : q x <;> simp [hp, hq] <;> omega

theorem two_le_countP {α : Type} (l : List α) (p : α → Bool) (a b : α)
    (ha : a ∈ l) (hb : b ∈ l) (hne : a ≠ b) (hpa : p a = true) (hpb : p b = true) :
    2 ≤ l.countP p := by
  induction l with
  | nil => cases ha
  | cons x xs ih =>
    rw [List.countP_cons]
    rcases List.mem_cons.mp ha with rfl | ha'
    · rcases List.mem_cons.mp hb with rfl | hb'
      · exact absurd rfl hne
      · have h1 : 0 < xs.countP p := List.countP_pos_iff.mpr ⟨b, hb', hpb⟩
        simp only [hpa, if_pos]
        omega
    · rcases List.mem_cons.mp hb with rfl | hb'
      · have h1 : 0 < xs.countP p := List.countP_pos_iff.mpr ⟨a, ha', hpa⟩
        simp only [hpb, if_pos]
        omega
      · have h2 := ih ha' hb'
        cases hx : p x <;> simp only [hx, if_pos, if_neg, Bool.false_eq_true] <;> omega

theorem occ_cons (e : TunnelRegistration) (g : List TunnelRegistration) (q : Int) :
    occ (e :: g) q = occ g q + (if e.UDPPublicPort == some q then 1 else 0) := by
  rw [occ, List.countP_cons]
  rfl

theorem occ_eq_zero_of_all (g : List TunnelRegistration) (p : Int)
    (h : g.all (fun e => !(e.UDPPublicPort == some p)) = true) : occ g p = 0 := by
  rw [occ, List.countP_eq_zero]
  intro e he
  have := List.all_eq_true.mp h e he
  simpa using this

/-- `RegInv` only looks at `portOwners` and `udpListeners`. -/
theorem RegInv_congr (s s' : SState) (g : List TunnelRegistration)
    (h1 : s'.portOwners = s.portOwners) (h2 : s'.udpListeners = s.udpListeners)
    (h : RegInv s g) : RegInv s' g := by
  obtain ⟨ha, hb, hc, hd⟩ := h
  exact ⟨fun p => by rw [h1]; exact ha p, hb, hc, fun p => by rw [h1, h2]; exact hd p⟩

theorem RegisterTunnel_portOwners_fresh (s : SState) (r : TunnelRegistration) (b : Bool)
    (p : Int) (hp : r.UDPPublicPort = some p)
    (hl : (mload s.udpListeners p).isSome = false) :
    (RegisterTunnel s r b).portOwners = mstore s.portOwners p r.TunnelID := by
  cases b
  · exact (RegisterTunnel_udp_bindfail s r p hp hl).1
  · exact (RegisterTunnel_udp_fresh s r p hp hl).1

theorem RegisterTunnel_udpListeners_fresh (s : SState) (r : TunnelRegistration) (b : Bool)
    (p : Int) (hp : r.UDPPublicPort = some p)
    (hl : (mload s.udpListeners p).isSome = false) :
    (RegisterTunnel s r b).udpListeners = mstore s.udpListeners p s.nextLid ∨
    (RegisterTunnel s r b).udpListeners = s.udpListeners := by
  cases b
  · exact Or.inr (RegisterTunnel_udp_bindfail s r p hp hl).2.2
  · exact Or.inl (RegisterTunnel_udp_fresh s r p hp hl).2.2

theorem tidOcc_cons (e : TunnelRegistration) (g : List TunnelRegistration) (t : String) :
    tidOcc (e :: g) t = tidOcc g t + (if e.TunnelID == t then 1 else 0) := by
  rw [tidOcc, List.countP_cons]
  rfl

theorem tidOcc_eq_zero_of_fresh (g : List TunnelRegistration) (r : TunnelRegistration)
    (h : g.all (fun e => !(e.TunnelID == r.TunnelID) && !(e.Subdomain == r.Subdomain)) = true) :
    tidOcc g r.TunnelID = 0 := by
  rw [tidOcc, List.countP_eq_zero]
  intro e he
  have := (Bool.and_eq_true _ _).mp (List.all_eq_true.mp h e he)
  simpa using this.1

theorem RegInv_reg (s : SState) (g : List TunnelRegistration) (r : TunnelRegistration)
    (b : Bool) (h : RegInv s g) (hf : freshReg g r = true) :
    RegInv (RegisterTunnel s r b) (r :: g) := by
  obtain ⟨h1, h2, h3, h4⟩ := h
  rw [freshReg, Bool.and_eq_true] at hf
  have hTid : tidOcc g r.TunnelID = 0 := tidOcc_eq_zero_of_fresh g r hf.1
  have htid' : ∀ t', tidOcc (r :: g) t' ≤ 1 := by
    intro t'
    rw [tidOcc_cons]
    by_cases ht : r.TunnelID = t'
    · subst ht
      simp only [beq_self_eq_true, if_pos]
      omega
    · have : (r.TunnelID == t') = false := by simpa using ht
      rw [this]
      simpa using h3 t'
  rcases hp : r.UDPPublicPort with _ | p
  · obtain ⟨e1, _, e3⟩ := RegisterTunnel_udp_none s r b hp
    have hocc : ∀ q, occ (r :: g) q = occ g q := by
      intro q
      rw [occ_cons, hp]
      simp
    refine ⟨?_, ?_, htid', ?_⟩
    · intro q
      rw [e1, hocc q]
      exact h1 q
    · intro q
      rw [hocc q]
      exact h2 q
    · intro q
      rw [e1, e3]
      exact h4 q
  · have hB : g.all (fun e => !(e.UDPPublicPort == some p)) = true := by
      have := hf.2
      rw [hp] at this
      exact this
    have hOccP : occ g p = 0 := occ_eq_zero_of_all g p hB
    have hOwnP : (mload s.portOwners p).isSome = false := by
      have hh := h1 p
      rw [hOccP] at hh
      simpa using hh
    have hLisP : (mload s.udpListeners p).isSome = false := by
      cases hli : (mload s.udpListeners p).isSome with
      | false => rfl
      | true =>
        have := h4 p hli
        rw [hOwnP] at this
        cases this
    have eOwn := RegisterTunnel_portOwners_fresh s r b p hp hLisP
    have eLis := RegisterTunnel_udpListeners_fresh s r b p hp hLisP
    refine ⟨?_, ?_, htid', ?_⟩
    · intro q
      by_cases hpq : q = p
      · subst hpq
        rw [eOwn, mload_mstore_self, occ_cons, hp]
        simp
      · have hne : ((some p : Option Int) == some q) = false :=
          beq_eq_false_iff_ne.mpr (fun hc => hpq (Option.some.inj hc).symm)
        rw [eOwn, mload_mstore_ne _ _ _ _ hpq, occ_cons, hp, hne]
        simpa using h1 q
    · intro q
      rw [occ_cons, hp]
      by_cases hpq : q = p
      · subst hpq
        simp only [beq_self_eq_true, if_pos]
        omega
      · have hne : ((some p : Option Int) == some q) = false :=
          beq_eq_false_iff_ne.mpr (fun hc => hpq (Option.some.inj hc).symm)
        rw [hne]
        simpa using h2 q
    · intro q
      rcases eLis with eL | eL
      · by_cases hpq : q = p
        · subst hpq
          rw [eOwn, mload_mstore_self]
          intro
          rfl
        · rw [eOwn, eL, mload_mstore_ne _ _ _ _ hpq, mload_mstore_ne _ _ _ _ hpq]
          exact h4 q
      · by_cases hpq : q = p
        · subst hpq
          rw [eOwn, mload_mstore_self]
          intro
          rfl
        · rw [eOwn, eL, mload_mstore_ne _ _ _ _ hpq]
          exact h4 q

theorem RegInv_unreg (s : SState) (g : List TunnelRegistration) (t sb : String)
    (pp : Option Int) (h : RegInv s g) (hm : g.any (matchEntry t sb pp) = true) :
    RegInv (UnregisterTunnel s t sb pp) (g.filter (fun e => !(e.TunnelID == t))) := by
  obtain ⟨h1, h2, h3, h4⟩ := h
  obtain ⟨e0, he0, hme⟩ := List.any_eq_true.mp hm
  rw [matchEntry, Bool.and_eq_true, Bool.and_eq_true] at hme
  have he0t : e0.TunnelID = t := by simpa using hme.1.1
  have he0pp : e0.UDPPublicPort = pp := by simpa using hme.2
  have hUnique : ∀ e' ∈ g, e'.TunnelID = t → e' = e0 := by
    intro e' he' ht'
    by_contra hne
    have h2le := two_le_countP g (fun e => e.TunnelID == t) e0 e' he0 he'
      (fun hEq => hne hEq.symm) (by simpa using he0t) (by simpa using ht')
    have := h3 t
    rw [tidOcc] at this
    omega
  have hOccF : ∀ q, occ (g.filter (fun e => !(e.TunnelID == t))) q =
      g.countP (fun e => (e.UDPPublicPort == some q) && !(e.TunnelID == t)) := by
    intro q
    rw [occ, List.countP_filter]
  have hOccLe : ∀ q, occ (g.filter (fun e => !(e.TunnelID == t))) q ≤ occ g q :=
    fun q => (List.filter_sublist g).countP_le _
  have hTidLe : ∀ t', tidOcc (g.filter (fun e => !(e.TunnelID == t))) t' ≤ tidOcc g t' :=
    fun t' => (List.filter_sublist g).countP_le _
  have hBothZero : ∀ q, pp ≠ some q →
      g.countP (fun e => (e.UDPPublicPort == some q) && (e.TunnelID == t)) = 0 := by
    intro q hq
    rw [List.countP_eq_zero]
    intro e' he' hc
    rw [Bool.and_eq_true] at hc
    have het' : e'.TunnelID = t := by simpa using hc.2
    have := hUnique e' he' het'
    subst this
    have : e'.UDPPublicPort = some q := by simpa using hc.1
    exact hq (he0pp ▸ this)
  have hOccSame : ∀ q, pp ≠ some q →
      occ (g.filter (fun e => !(e.TunnelID == t))) q = occ g q := by
    intro q hq
    have hsplit := countP_split g (fun e => e.UDPPublicPort == some q)
      (fun e => e.TunnelID == t)
    rw [hBothZero q hq] at hsplit
    rw [hOccF q, occ]
    omega
  rcases pp with _ | p0
  · obtain e1 := UnregisterTunnel_portOwners s t sb none
    obtain e3 := UnregisterTunnel_udpListeners s t sb none
    refine ⟨?_, ?_, ?_, ?_⟩
    · intro q
      rw [e1, hOccSame q (by simp)]
      exact h1 q
    · intro q
      exact le_trans (hOccLe q) (h2 q)
    · intro t'
      exact le_trans (hTidLe t') (h3 t')
    · intro q
      rw [e1, e3]
      exact h4 q
  · have hOccP0 : occ (g.filter (fun e => !(e.TunnelID == t))) p0 = 0 := by
      have hsplit := countP_split g (fun e => e.UDPPublicPort == some p0)
        (fun e => e.TunnelID == t)
      have hboth : 0 < g.countP
          (fun e => (e.UDPPublicPort == some p0) && (e.TunnelID == t)) :=
        List.countP_pos_iff.mpr ⟨e0, he0, by simp [he0pp, he0t]⟩
      have hle := h2 p0
      rw [occ] at hle
      rw [hOccF p0]
      omega
    refine ⟨?_, ?_, ?_, ?_⟩
    · intro q
      rw [UnregisterTunnel_portOwners]
      dsimp only
      by_cases hpq : q = p0
      · subst hpq
        rw [mload_mdelete_self, hOccP0]
        simp
      · rw [mload_mdelete_ne _ _ _ hpq,
          hOccSame q (fun hc => hpq (by injection hc; omega))]
        exact h1 q
    · intro q
      exact le_trans (hOccLe q) (h2 q)
    · intro t'
      exact le_trans (hTidLe t') (h3 t')
    · intro q
      rw [UnregisterTunnel_portOwners, UnregisterTunnel_udpListeners]
      dsimp only
      by_cases hpq : q = p0
      · subst hpq
        rw [mload_mdelete_self]
        intro hc
        cases hc
      · rw [mload_mdelete_ne _ _ _ hpq, mload_mdelete_ne _ _ _ hpq]
        exact h4 q

theorem RegInv_run : ∀ (evs : List Ev) (g : List TunnelRegistration) (s : SState),
    RegInv s g → wfChk g evs = true → RegInv (stateRun s evs) (registryRun g evs) := by
  intro evs
  induction evs with
  | nil => exact fun g s h _ => h
  | cons ev evs ih =>
    intro g s h hwf
    have hrun : stateRun s (ev :: evs) = stateRun (applyEv s ev) evs := rfl
    have hreg : registryRun g (ev :: evs) = registryRun (registryStep g ev) evs := rfl
    rw [hrun, hreg]
    cases ev with
    | reg r b =>
      rw [wfChk, Bool.and_eq_true] at hwf
      exact ih (r :: g) _ (RegInv_reg s g r b h hwf.1) hwf.2
    | unreg t sb pp =>
      rw [wfChk, Bool.and_eq_true] at hwf
      exact ih _ _ (RegInv_unreg s g t sb pp h hwf.1) hwf.2
    | auth t c =>
      refine ih g _ ?_ hwf
      obtain ⟨e1, _, e3⟩ := authHandshake_udp_fields s t c
      exact RegInv_congr s _ g e1 e3 h
    | disc t c =>
      refine ih g _ ?_ hwf
      obtain ⟨e1, _, e3⟩ := clientDisconnect_udp_fields s t c
      exact RegInv_congr s _ g e1 e3 h
    | pkt pc a t =>
      refine ih g _ ?_ hwf
      obtain ⟨e1, _, e3⟩ := handleUDPPacket_udp_fields s pc a t
      exact RegInv_congr s _ g e1 e3 h

/-- C5 counterexample: two registrations sharing UDP public port 20000
(the second skips its listener, but still registers), then the second is
unregistered.  `IsUDPPortInUse 20000` is now false although tunnel
`"t1"` is still registered with `udp_public_port = 20000`. -/
theorem c5_counterexample :
    IsUDPPortInUse (stateRun initState
        [.reg ⟨"t1", "a", 25565, none, 24454, some 20000⟩ true,
         .reg ⟨"t2", "b", 25566, none, 24455, some 20000⟩ true,
         .unreg "t2" "b" (some 20000)]) 20000 = false ∧
    ∃ e ∈ registryRun []
        [.reg ⟨"t1", "a", 25565, none, 24454, some 20000⟩ true,
         .reg ⟨"t2", "b", 25566, none, 24455, some 20000⟩ true,
         .unreg "t2" "b" (some 20000)],
      e.UDPPublicPort = some 20000 := by
  constructor
  · decide
  · refine ⟨⟨"t1", "a", 25565, none, 24454, some 20000⟩, by decide, rfl⟩

/-- C5 amended: over well-formed traces — every register uses a tunnel id,
subdomain and UDP public port that are fresh among the currently
registered tunnels, and every unregister exactly matches a currently
registered tunnel — `IsUDPPortInUse p` is true iff `p` is the
`udp_public_port` of some currently registered tunnel. -/
theorem c5_amended_port_in_use (evs : List Ev) (p : Int)
    (hwf : wfChk [] evs = true) :
    IsUDPPortInUse (stateRun initState evs) p = true ↔
      ∃ e ∈ registryRun [] evs, e.UDPPublicPort = some p := by
  have hinit : RegInv initState [] := by
    refine ⟨fun q => ?_, fun q => ?_, fun t => ?_, fun q hq => ?_⟩
    · simp [initState, mload, occ]
    · simp [occ]
    · simp [tidOcc]
    · simp [initState, mload] at hq
  have h := RegInv_run evs [] initState hinit hwf
  rw [IsUDPPortInUse]
  rw [h.1 p]
  rw [occ, List.countP_pos_iff]
  constructor
  · rintro ⟨e, he, hp⟩
    exact ⟨e, he, by simpa using hp⟩
  · rintro ⟨e, he, hp⟩
    exact ⟨e, he, by simpa using hp⟩

/-- Witness for C5 amended on a concrete well-formed trace. -/
theorem c5_amended_port_in_use_witness :
    wfChk [] [.reg ⟨"t1", "a", 25565, none, 24454, some 20000⟩ true] = true ∧
    (IsUDPPortInUse (stateRun initState
        [.reg ⟨"t1", "a", 25565, none, 24454, some 20000⟩ true]) 20000 = true ↔
      ∃ e ∈ registryRun [] [.reg ⟨"t1", "a", 25565, none, 24454, some 20000⟩ true],
        e.UDPPublicPort = some 20000) :=
  ⟨by decide,
   c5_amended_port_in_use [.reg ⟨"t1", "a", 25565, none, 24454, some 20000⟩ true] 20000
     (by decide)⟩

theorem truncAtNul_eq_takeWhile (bs : List Nat) :
    (match bs.findIdx? (fun b => b == 0) with
     | some i => bs.take i
     | none => bs) = bs.takeWhile (fun b => !(b == 0)) := by
  induction bs with
  | nil => rfl
  | cons b rest ih =>
    cases hb : (b == 0) with
    | true => simp [List.findIdx?_cons, hb, List.takeWhile_cons]
    | false =>
      simp only [List.findIdx?_cons, hb, if_neg, List.takeWhile_cons, Bool.not_false,
        List.findIdx?_succ, Bool.false_eq_true, if_false]
      cases hf : rest.findIdx? (fun x => x == 0) with
      | none =>
        rw [hf] at ih
        have ih' : rest = rest.takeWhile (fun b => !(b == 0)) := ih
        simp [← ih']
      | some i =>
        rw [hf] at ih
        have ih' : rest.take i = rest.takeWhile (fun b => !(b == 0)) := ih
        simp [List.take_succ_cons, ← ih']

theorem sanitizeAddr_eq_specSanitize (bs : List Nat) :
    sanitizeAddr bs = specSanitize bs := by
  unfold sanitizeAddr specSanitize
  rw [truncAtNul_eq_takeWhile]

/-- C3: the Minecraft handshake parser fails whenever the packet-length
VarInt is outside `[1, 32768]`, any VarInt errors (in particular when it
needs more than 5 bytes / 35 shift bits), the packet id is not `0x00`, or
the server-address string length is outside `[1, 255]`; on success it
returns the address bytes with everything from the first NUL onward
stripped and a trailing dot trimmed, together with every byte read
(the length prefix plus the whole packet body). -/
theorem c3_parse_minecraft_handshake (input : List Nat) :
    (∀ n r1, readVarInt input 0 0 = .ok (n, r1) → (n = 0 ∨ 32768 < n) →
      parseMinecraftHandshake input = .error "bad packet length") ∧
    (∀ m, readVarInt input 0 0 = .error m → parseMinecraftHandshake input = .error m) ∧
    (∀ n r1 m, readVarInt input 0 0 = .ok (n, r1) → ¬(n = 0 ∨ 32768 < n) →
      ¬(r1.length < n) → readVarInt (r1.take n) 0 0 = .error m →
      parseMinecraftHandshake input = .error m) ∧
    (∀ n r1 pid b1, readVarInt input 0 0 = .ok (n, r1) → ¬(n = 0 ∨ 32768 < n) →
      ¬(r1.length < n) → readVarInt (r1.take n) 0 0 = .ok (pid, b1) → pid ≠ 0 →
      parseMinecraftHandshake input = .error "expected handshake") ∧
    (∀ n r1 b1 m, readVarInt input 0 0 = .ok (n, r1) → ¬(n = 0 ∨ 32768 < n) →
      ¬(r1.length < n) → readVarInt (r1.take n) 0 0 = .ok (0, b1) →
      readVarInt b1 0 0 = .error m → parseMinecraftHandshake input = .error m) ∧
    (∀ n r1 b1 pv b2 m, readVarInt input 0 0 = .ok (n, r1) → ¬(n = 0 ∨ 32768 < n) →
      ¬(r1.length < n) → readVarInt (r1.take n) 0 0 = .ok (0, b1) →
      readVarInt b1 0 0 = .ok (pv, b2) → readVarInt b2 0 0 = .error m →
      parseMinecraftHandshake input = .error m) ∧
    (∀ n r1 b1 pv b2 sl b3, readVarInt input 0 0 = .ok (n, r1) → ¬(n = 0 ∨ 32768 < n) →
      ¬(r1.length < n) → readVarInt (r1.take n) 0 0 = .ok (0, b1) →
      readVarInt b1 0 0 = .ok (pv, b2) → readVarInt b2 0 0 = .ok (sl, b3) →
      (sl = 0 ∨ 255 < sl) →
      parseMinecraftHandshake input = .error "bad server address length") ∧
    (∀ a rb, parseMinecraftHandshake input = .ok (a, rb) →
      ∃ n r1 pid b1 pv b2 sl b3,
        readVarInt input 0 0 = .ok (n, r1) ∧ 1 ≤ n ∧ n ≤ 32768 ∧ n ≤ r1.length ∧
        readVarInt (r1.take n) 0 0 = .ok (pid, b1) ∧ pid = 0 ∧
        readVarInt b1 0 0 = .ok (pv, b2) ∧
        readVarInt b2 0 0 = .ok (sl, b3) ∧ 1 ≤ sl ∧ sl ≤ 255 ∧ sl ≤ b3.length ∧
        a = specSanitize (b3.take sl) ∧
        rb = input.take (input.length - r1.length) ++ r1.take n) := by
  refine ⟨?_, ?_, ?_, ?_, ?_, ?_, ?_, ?_⟩
  · intro n r1 h1 hbad
    unfold parseMinecraftHandshake
    rw [h1]
    try dsimp only
    rw [if_pos hbad]
  · intro m h1
    unfold parseMinecraftHandshake
    rw [h1]
  · intro n r1 m h1 hb hlen h2
    unfold parseMinecraftHandshake
    rw [h1]
    try dsimp only
    rw [if_neg hb, if_neg hlen]
    try dsimp only
    rw [h2]
  · intro n r1 pid b1 h1 hb hlen h2 hpid
    unfold parseMinecraftHandshake
    rw [h1]
    try dsimp only
    rw [if_neg hb, if_neg hlen]
    try dsimp only
    rw [h2]
    try dsimp only
    rw [if_pos hpid]
  · intro n r1 b1 m h1 hb hlen h2 h3
    unfold parseMinecraftHandshake
    rw [h1]
    try dsimp only
    rw [if_neg hb, if_neg hlen]
    try dsimp only
    rw [h2]
    try dsimp only
    rw [if_neg (fun hc : (0 : Nat) ≠ 0 => hc rfl)]
    rw [h3]
  · intro n r1 b1 pv b2 m h1 hb hlen h2 h3 h4
    unfold parseMinecraftHandshake
    rw [h1]
    try dsimp only
    rw [if_neg hb, if_neg hlen]
    try dsimp only
    rw [h2]
    try dsimp only
    rw [if_neg (fun hc : (0 : Nat) ≠ 0 => hc rfl)]
    rw [h3]
    try dsimp only
    rw [h4]
  · intro n r1 b1 pv b2 sl b3 h1 hb hlen h2 h3 h4 hsl
    unfold parseMinecraftHandshake
    rw [h1]
    try dsimp only
    rw [if_neg hb, if_neg hlen]
    try dsimp only
    rw [h2]
    try dsimp only
    rw [if_neg (fun hc : (0 : Nat) ≠ 0 => hc rfl)]
    rw [h3]
    try dsimp only
    rw [h4]
    try dsimp only
    rw [if_pos hsl]
  · intro a rb h
    unfold parseMinecraftHandshake at h
    rcases hv1 : readVarInt input 0 0 with m | ⟨n, r1⟩ <;> rw [hv1] at h
    · cases h
    try dsimp only at h
    by_cases hb : (n = 0 ∨ 32768 < n)
    · rw [if_pos hb] at h; cases h
    rw [if_neg hb] at h
    by_cases hlen : r1.length < n
    · rw [if_pos hlen] at h; cases h
    rw [if_neg hlen] at h
    try dsimp only at h
    rcases hv2 : readVarInt (r1.take n) 0 0 with m | ⟨pid, b1⟩ <;> rw [hv2] at h
    · cases h
    try dsimp only at h
    by_cases hpid : pid ≠ 0
    · rw [if_pos hpid] at h; cases h
    rw [if_neg hpid] at h
    push_neg at hpid
    rcases hv3 : readVarInt b1 0 0 with m | ⟨pv, b2⟩ <;> rw [hv3] at h
    · cases h
    try dsimp only at h
    rcases hv4 : readVarInt b2 0 0 with m | ⟨sl, b3⟩ <;> rw [hv4] at h
    · cases h
    try dsimp only at h
    by_cases hsl : (sl = 0 ∨ 255 < sl)
    · rw [if_pos hsl] at h; cases h
    rw [if_neg hsl] at h
    by_cases hsl2 : b3.length < sl
    · rw [if_pos hsl2] at h; cases h
    rw [if_neg hsl2] at h
    push_neg at hb hsl
    injection h with h'
    injection h' with ha hrb
    refine ⟨n, r1, pid, b1, pv, b2, sl, b3, rfl, by omega, hb.2, by omega, hv2, hpid,
      hv3, hv4, by omega, hsl.2, by omega, ?_, hrb.symm⟩
    rw [← ha, sanitizeAddr_eq_specSanitize]

/-- Witness for C3: a zero packet-length VarInt makes the parser fail. -/
theorem c3_parse_minecraft_handshake_witness :
    readVarInt [0] 0 0 = .ok (0, []) ∧
    parseMinecraftHandshake [0] = .error "bad packet length" :=
  ⟨rfl, (c3_parse_minecraft_handshake [0]).1 0 [] rfl (Or.inl rfl)⟩

end VoidLink
